import Mathlib

/-!
Verification of the link-state routing core of the Nokia-Nrs-Ospf-Lab
repository (src/ospf_router.py, src/isis_router.py, src/ospf_network.py,
src/demo.py), shallowly embedded in Lean 4.

Python dictionaries are modelled as insertion-ordered association lists
(`List (String × α)`): assignment to an existing key keeps its position,
assignment to a fresh key appends.  Python `set` fields are modelled as
duplicate-free lists (only membership and idempotent insertion are used by
the source).  `float('inf')` in the Dijkstra loop is modelled by
`Option Int` with `none` standing for infinity.  `time.time()` values are
supplied by callers as a `Nat` parameter.
-/

namespace OspfLab

/-- Python-dict lookup: first entry with the given key. -/
def alGet (k : String) : List (String × α) → Option α
  | [] => none
  | (k', v) :: rest => if k' = k then some v else alGet k rest

/-- Python-dict membership test (`k in d`). -/
def alMem (k : String) (l : List (String × α)) : Bool :=
  (alGet k l).isSome

/-- Python-dict assignment `d[k] = v`: overwrite in place if the key is
present (keeping its position), append otherwise. -/
def alUpdate (k : String) (v : α) : List (String × α) → List (String × α)
  | [] => [(k, v)]
  | (k', v') :: rest =>
    if k' = k then (k, v) :: rest else (k', v') :: alUpdate k v rest

/-- In-place mutation of the value stored under a key that is present
(`d[k].field = ...` in the source); leaves the list unchanged when the key
is absent (the source only mutates keys it has just created). -/
def alModify (k : String) (f : α → α) : List (String × α) → List (String × α)
  | [] => []
  | (k', v') :: rest =>
    if k' = k then (k', f v') :: rest else (k', v') :: alModify k f rest

/-- Idempotent insertion into a Python `set` modelled as a list. -/
def setAdd (x : String) (l : List String) : List String :=
  if l.contains x then l else l ++ [x]

@[simp] theorem alGet_nil : alGet k ([] : List (String × α)) = none := rfl

theorem alGet_alUpdate (k k' : String) (v : α) (l : List (String × α)) :
    alGet k (alUpdate k' v l) = if k' = k then some v else alGet k l := by
  induction l with
  | nil => simp [alGet, alUpdate]
  | cons hd tl ih =>
    obtain ⟨k₀, v₀⟩ := hd
    by_cases h₀ : k₀ = k'
    · subst h₀
      by_cases h₁ : k₀ = k <;> simp [alGet, alUpdate, h₁]
    · by_cases h₁ : k₀ = k
      · subst h₁
        have : ¬ k' = k₀ := fun h => h₀ h.symm
        simp [alGet, alUpdate, h₀, this]
      · simp [alGet, alUpdate, h₀, h₁, ih]

theorem alGet_alUpdate_self (k : String) (v : α) (l : List (String × α)) :
    alGet k (alUpdate k v l) = some v := by
  simp [alGet_alUpdate]

theorem alGet_alUpdate_ne (k k' : String) (v : α) (l : List (String × α))
    (h : k' ≠ k) : alGet k (alUpdate k' v l) = alGet k l := by
  simp [alGet_alUpdate, h]

/-! ### OSPF data model (src/ospf_router.py) -/

/-- `OSPFState` enumeration (ospf_router.py lines 14-21). -/
inductive OSPFState where
  | DOWN | INIT | TWO_WAY | EXSTART | EXCHANGE | LOADING | FULL
  deriving DecidableEq, Repr

/-- One entry of an LSA's `links` list.  In the source a link is a plain
dict with keys `interface`, `ip`, `cost` and optionally
`neighbor_router_id` (read back with `link.get('neighbor_router_id')`). -/
structure Link where
  iface : String
  ip : String
  cost : Int
  neighbor_router_id : Option String := none
  deriving DecidableEq, Repr

/-- `LSA` dataclass (ospf_router.py lines 24-30). -/
structure LSA where
  router_id : String
  sequence : Int := 0
  links : List Link := []
  age : Int := 0
  deriving DecidableEq, Repr

/-- Extended distance: `none` models `float('inf')`. -/
abbrev EInt := Option Int

/-- `Route` dataclass (ospf_router.py lines 33-39).  `cost` is an `EInt`
because `_build_routing_table` copies a Dijkstra distance, which in Python
is a float that could in principle be `inf`. -/
structure Route where
  pfx : String
  next_hop : String
  cost : EInt
  iface : String
  deriving DecidableEq, Repr

/-- One neighbor-table entry: `{state, last_hello, interface}`. -/
structure NeighborInfo where
  state : OSPFState
  lastHello : Nat
  iface : String
  deriving DecidableEq, Repr

/-- One interface-table entry: `{ip, mask, cost, neighbors}`. -/
structure IfaceInfo where
  ip : String
  mask : String
  cost : Int
  neighbors : List String
  deriving DecidableEq, Repr

/-- The mutable state of `OSPFRouter` (threading fields are omitted: they
are only read by the background loops, which are out of scope). -/
structure OSPFRouter where
  router_id : String
  area_id : String
  neighbors : List (String × NeighborInfo)
  lsdb : List (String × LSA)
  routing_table : List (String × Route)
  interfaces : List (String × IfaceInfo)
  deriving DecidableEq, Repr

/-- The link dict `{'interface': iface, 'ip': info['ip'], 'cost':
info['cost']}` built by `_create_self_lsa` from one interface-table
entry: no `neighbor_router_id` key. -/
def ifaceLink (p : String × IfaceInfo) : Link :=
  { iface := p.1, ip := p.2.ip, cost := p.2.cost, neighbor_router_id := none }

/-- `_create_self_lsa` (ospf_router.py lines 81-96): rebuild the local
record from the current interface list, sequence 0, no neighbor ids. -/
def createSelfLsa (r : OSPFRouter) : OSPFRouter :=
  let selfLsa : LSA :=
    { router_id := r.router_id, sequence := 0,
      links := r.interfaces.map ifaceLink, age := 0 }
  { r with lsdb := alUpdate r.router_id selfLsa r.lsdb }

/-- `OSPFRouter.__init__` (ospf_router.py lines 45-69). -/
def initRouter (routerId : String) (areaId : String) : OSPFRouter :=
  createSelfLsa
    { router_id := routerId, area_id := areaId, neighbors := [],
      lsdb := [], routing_table := [], interfaces := [] }

/-- `add_interface` (ospf_router.py lines 71-79). -/
def addInterface (r : OSPFRouter) (iface ip mask : String) (cost : Int) :
    OSPFRouter :=
  let info : IfaceInfo := { ip := ip, mask := mask, cost := cost, neighbors := [] }
  createSelfLsa { r with interfaces := alUpdate iface info r.interfaces }

/-- The neighbors the `_flood_lsa` loop body (ospf_router.py lines 156-161)
executes for: every neighbor other than the sender whose state is `FULL`.
The body itself is `pass`, so these are the routers the record *would* be
sent to; no packet is produced. -/
def floodTargets (r : OSPFRouter) (exceptRouter : String) : List String :=
  (r.neighbors.filter fun p =>
    p.1 ≠ exceptRouter ∧ p.2.state = OSPFState.FULL).map Prod.fst

/-- Result of `_receive_lsa`: the updated router, and `some targets` when
`_flood_lsa` was invoked (with the list of neighbors its loop body fired
for), `none` when the record was discarded. -/
structure ReceiveLsaResult where
  router : OSPFRouter
  flooded : Option (List String)
  deriving DecidableEq, Repr

/-- `_receive_lsa` (ospf_router.py lines 142-154). -/
def receiveLsa (r : OSPFRouter) (lsa : LSA) (fromRouter : String) :
    ReceiveLsaResult :=
  match alGet lsa.router_id r.lsdb with
  | none =>
    let r' := { r with lsdb := alUpdate lsa.router_id lsa r.lsdb }
    { router := r', flooded := some (floodTargets r' fromRouter) }
  | some stored =>
    if lsa.sequence > stored.sequence then
      let r' := { r with lsdb := alUpdate lsa.router_id lsa r.lsdb }
      { router := r', flooded := some (floodTargets r' fromRouter) }
    else
      { router := r, flooded := none }

/-- `_send_lsas` (ospf_router.py lines 133-136): re-deliver every record of
the *local* LSDB to the local router itself, naming the neighbor as the
sender.  (The peer router is not involved.)  The flood lists produced by
the inner `_receive_lsa` calls are collected for inspection. -/
def sendLsas (r : OSPFRouter) (neighborId : String) :
    OSPFRouter × List (List String) :=
  r.lsdb.foldl
    (fun acc p =>
      let res := receiveLsa acc.1 p.2 neighborId
      (res.router, acc.2 ++ (res.flooded.map fun t => [t]).getD []))
    (r, [])

/-- Set the state of a neighbor entry (`self.neighbors[n]['state'] = s`). -/
def setNeighborState (r : OSPFRouter) (n : String) (s : OSPFState) :
    OSPFRouter :=
  let upd : NeighborInfo → NeighborInfo := fun info => { info with state := s }
  { r with neighbors := alModify n upd r.neighbors }

/-- `_exchange_lsas` (ospf_router.py lines 116-131). -/
def exchangeLsas (r : OSPFRouter) (neighborId : String) :
    OSPFRouter × List (List String) :=
  match alGet neighborId r.neighbors with
  | some info =>
    if info.state = OSPFState.TWO_WAY then
      let r := setNeighborState r neighborId OSPFState.EXSTART
      let (r, logs) := sendLsas r neighborId
      let r := setNeighborState r neighborId OSPFState.EXCHANGE
      let r := setNeighborState r neighborId OSPFState.FULL
      (r, logs)
    else (r, [])
  | none => (r, [])

/-- `receive_hello` (ospf_router.py lines 98-114).  `now` is the value
`time.time()` would return during the call. -/
def receiveHello (r : OSPFRouter) (neighborId iface : String) (now : Nat) :
    OSPFRouter × List (List String) :=
  let r :=
    match alGet neighborId r.neighbors with
    | none =>
      let info : NeighborInfo :=
        { state := OSPFState.INIT, lastHello := now, iface := iface }
      { r with neighbors := alUpdate neighborId info r.neighbors }
    | some info =>
      let info' : NeighborInfo := { info with lastHello := now }
      { r with neighbors := alUpdate neighborId info' r.neighbors }
  match alGet neighborId r.neighbors with
  | some info =>
    if info.state = OSPFState.INIT then
      let r := setNeighborState r neighborId OSPFState.TWO_WAY
      exchangeLsas r neighborId
    else (r, [])
  | none => (r, [])

/-! ### ISIS data model (src/isis_router.py) -/

/-- `ISISLevel` enumeration (isis_router.py lines 13-16). -/
inductive ISISLevel where
  | LEVEL_1 | LEVEL_2 | LEVEL_1_2
  deriving DecidableEq, Repr

/-- `ISISState` enumeration (isis_router.py lines 19-22). -/
inductive ISISState where
  | DOWN | INIT | UP
  deriving DecidableEq, Repr

/-- `LSP` dataclass (isis_router.py lines 25-32).  Its `links` entries have
the same shape as OSPF links, with the optional key named
`neighbor_system_id`; `Link.neighbor_router_id` plays that role here. -/
structure LSP where
  system_id : String
  sequence : Int := 0
  links : List Link := []
  age : Int := 0
  level : ISISLevel := ISISLevel.LEVEL_1
  deriving DecidableEq, Repr

/-- `ISISRoute` dataclass (isis_router.py lines 35-42). -/
structure ISISRoute where
  pfx : String
  next_hop : String
  cost : EInt
  iface : String
  level : ISISLevel
  deriving DecidableEq, Repr

/-- One ISIS neighbor-table entry: `{state, last_hello, interface, level}`. -/
structure ISISNeighborInfo where
  state : ISISState
  lastHello : Nat
  iface : String
  level : ISISLevel
  deriving DecidableEq, Repr

/-- The mutable state of `ISISRouter` (threading fields omitted). -/
structure ISISRouter where
  system_id : String
  level : ISISLevel
  neighbors : List (String × ISISNeighborInfo)
  lsdb : List (String × LSP)
  routing_table : List (String × ISISRoute)
  interfaces : List (String × IfaceInfo)
  deriving DecidableEq, Repr

/-- `_create_self_lsp` (isis_router.py lines 84-100). -/
def createSelfLsp (r : ISISRouter) : ISISRouter :=
  let selfLsp : LSP :=
    { system_id := r.system_id, sequence := 0,
      links := r.interfaces.map ifaceLink, age := 0,
      level := r.level }
  { r with lsdb := alUpdate r.system_id selfLsp r.lsdb }

/-- `ISISRouter.__init__` (isis_router.py lines 48-72). -/
def initIsisRouter (systemId : String) (level : ISISLevel) : ISISRouter :=
  createSelfLsp
    { system_id := systemId, level := level, neighbors := [],
      lsdb := [], routing_table := [], interfaces := [] }

/-- ISIS `add_interface` (isis_router.py lines 74-82). -/
def isisAddInterface (r : ISISRouter) (iface ip mask : String) (cost : Int) :
    ISISRouter :=
  let info : IfaceInfo := { ip := ip, mask := mask, cost := cost, neighbors := [] }
  createSelfLsp { r with interfaces := alUpdate iface info r.interfaces }

/-- `_levels_compatible` (isis_router.py lines 123-127). -/
def levelsCompatible (level1 level2 : ISISLevel) : Bool :=
  if level1 = ISISLevel.LEVEL_1_2 ∨ level2 = ISISLevel.LEVEL_1_2 then true
  else level1 = level2

/-- The neighbors the `_flood_lsp` loop body (isis_router.py lines 157-162)
executes for: every neighbor other than the sender whose state is `UP`.
The body is `pass`; nothing is delivered. -/
def isisFloodTargets (r : ISISRouter) (exceptRouter : String) : List String :=
  (r.neighbors.filter fun p =>
    p.1 ≠ exceptRouter ∧ p.2.state = ISISState.UP).map Prod.fst

/-- Result of `_receive_lsp`, analogous to `ReceiveLsaResult`. -/
structure ReceiveLspResult where
  router : ISISRouter
  flooded : Option (List String)
  deriving DecidableEq, Repr

/-- `_receive_lsp` (isis_router.py lines 143-155). -/
def receiveLsp (r : ISISRouter) (lsp : LSP) (fromRouter : String) :
    ReceiveLspResult :=
  match alGet lsp.system_id r.lsdb with
  | none =>
    let r' := { r with lsdb := alUpdate lsp.system_id lsp r.lsdb }
    { router := r', flooded := some (isisFloodTargets r' fromRouter) }
  | some stored =>
    if lsp.sequence > stored.sequence then
      let r' := { r with lsdb := alUpdate lsp.system_id lsp r.lsdb }
      { router := r', flooded := some (isisFloodTargets r' fromRouter) }
    else
      { router := r, flooded := none }

/-- `_send_lsps` (isis_router.py lines 134-137), collecting flood lists. -/
def sendLsps (r : ISISRouter) (neighborId : String) :
    ISISRouter × List (List String) :=
  r.lsdb.foldl
    (fun acc p =>
      let res := receiveLsp acc.1 p.2 neighborId
      (res.router, acc.2 ++ (res.flooded.map fun t => [t]).getD []))
    (r, [])

/-- The neighbor-state assignment
`self.neighbors[neighbor_id]['state'] = ISISState.UP`
(isis_router.py line 119). -/
def isisSetUp (r : ISISRouter) (neighborId : String) : ISISRouter :=
  let upd : ISISNeighborInfo → ISISNeighborInfo :=
    fun q => { q with state := ISISState.UP }
  { r with neighbors := alModify neighborId upd r.neighbors }

/-- ISIS `receive_hello` (isis_router.py lines 102-121), i.e. IIH
processing; `_exchange_lsps` (lines 129-132) is inlined as its body is a
single `_send_lsps` call. -/
def isisReceiveHello (r : ISISRouter) (neighborId iface : String)
    (neighborLevel : ISISLevel) (now : Nat) :
    ISISRouter × List (List String) :=
  let r :=
    match alGet neighborId r.neighbors with
    | none =>
      let info : ISISNeighborInfo :=
        { state := ISISState.INIT, lastHello := now, iface := iface,
          level := neighborLevel }
      { r with neighbors := alUpdate neighborId info r.neighbors }
    | some info =>
      let info' : ISISNeighborInfo := { info with lastHello := now }
      { r with neighbors := alUpdate neighborId info' r.neighbors }
  match alGet neighborId r.neighbors with
  | some info =>
    if info.state = ISISState.INIT then
      if levelsCompatible r.level neighborLevel then
        sendLsps (isisSetUp r neighborId) neighborId
      else (r, [])
    else (r, [])
  | none => (r, [])

/-! ### Shortest-path engine (ospf_router.py lines 163-264) -/

/-- Strict `<` on extended distances; `none` is `float('inf')`
(`inf < inf` is false, `x < inf` is true for finite `x`). -/
def eLt : EInt → EInt → Bool
  | some a, some b => a < b
  | some _, none => true
  | none, _ => false

/-- `distances.get(current, float('inf')) + cost`. -/
def eAdd (e : EInt) (c : Int) : EInt := e.map (· + c)

/-- Build the adjacency graph from the LSDB (ospf_router.py lines 168-177):
a link contributes an edge only when its `neighbor_router_id` is truthy
(present and nonempty, since the empty Python string is falsy) and names
an origin present in the LSDB. -/
def buildGraph (lsdb : List (String × LSA)) :
    List (String × List (String × Int)) :=
  lsdb.map fun p =>
    (p.1, p.2.links.filterMap fun link =>
      match link.neighbor_router_id with
      | some nid =>
        if nid ≠ "" ∧ alMem nid lsdb then some (nid, link.cost) else none
      | none => none)

/-- `min(candidates, key=candidates.get)`: the first key attaining the
minimal value, scanning in insertion order (Python `min` keeps the current
best and replaces it only on a strictly smaller value). -/
def selectMinAux (best : String × EInt) : List (String × EInt) → String
  | [] => best.1
  | p :: rest =>
    if eLt p.2 best.2 then selectMinAux p rest else selectMinAux best rest

/-- The candidate dict `{k: v for k, v in distances.items() if k in unvisited}`
and its minimum; `none` when the comprehension is empty (the `break`). -/
def selectMin (distances : List (String × EInt)) (unvisited : List String) :
    Option String :=
  match distances.filter (fun p => unvisited.contains p.1) with
  | [] => none
  | c :: cs => some (selectMinAux c cs)

/-- Relaxation of the selected vertex's outgoing edges
(ospf_router.py lines 193-200). -/
def relaxEdges (unvisited : List String) (current : String)
    (edges : List (String × Int)) :
    List (String × EInt) × List (String × String) →
    List (String × EInt) × List (String × String)
  | (distances, previous) =>
    edges.foldl
      (fun dp edge =>
        let distances := dp.1
        let previous := dp.2
        if unvisited.contains edge.1 then
          let newDistance := eAdd ((alGet current distances).getD none) edge.2
          match alGet edge.1 distances with
          | none =>
            (alUpdate edge.1 newDistance distances,
             alUpdate edge.1 current previous)
          | some d =>
            if eLt newDistance d then
              (alUpdate edge.1 newDistance distances,
               alUpdate edge.1 current previous)
            else (distances, previous)
        else (distances, previous))
      (distances, previous)

/-- The `while unvisited:` loop (ospf_router.py lines 184-200).  Each
iteration either breaks or removes the selected vertex from `unvisited`,
so `unvisited.length` bounds the number of iterations; the fuel argument
makes this explicit. -/
def dijkstraLoop (graph : List (String × List (String × Int))) :
    Nat → List String → List (String × EInt) × List (String × String) →
    List (String × EInt) × List (String × String)
  | 0, _, dp => dp
  | _ + 1, [], dp => dp
  | fuel + 1, unvisited, dp =>
    match selectMin dp.1 unvisited with
    | none => dp
    | some current =>
      let unvisited' := unvisited.filter (fun x => x ≠ current)
      let edges := (alGet current graph).getD []
      dijkstraLoop graph fuel unvisited' (relaxEdges unvisited' current edges dp)

/-- `_get_path` (ospf_router.py lines 237-246): walk predecessor pointers
backwards from `dest`, append self, reverse.  The walk is bounded by
`fuel`; the Dijkstra-produced predecessor maps are acyclic and are fully
traversed with fuel `previous.length + 1`. -/
def backwardWalk (previous : List (String × String)) :
    Nat → String → List String
  | 0, _ => []
  | fuel + 1, current =>
    match alGet current previous with
    | some p => current :: backwardWalk previous fuel p
    | none => []

/-- `_get_path`: the reconstructed path `[self, ..., dest]`. -/
def getPath (selfId dest : String) (previous : List (String × String)) :
    List String :=
  (backwardWalk previous (previous.length + 1) dest ++ [selfId]).reverse

/-- `_find_next_hop` (ospf_router.py lines 248-264): `None` when `dest`
has no predecessor, otherwise the second-to-last element of the backward
path with self appended (the first hop after self). -/
def findNextHop (selfId dest : String)
    (previous : List (String × String)) : Option String :=
  match alGet dest previous with
  | none => none
  | some _ =>
    let path := backwardWalk previous (previous.length + 1) dest ++ [selfId]
    if path.length ≥ 2 then path.get? (path.length - 2) else none

/-- `_get_interface_to_neighbor` (ospf_router.py lines 266-271): first
interface whose neighbor set contains the id. -/
def getInterfaceToNeighbor (r : OSPFRouter) (neighborId : String) :
    Option String :=
  (r.interfaces.find? fun p => p.2.neighbors.contains neighborId).map Prod.fst

/-- One iteration of the `for dest_router, cost in distances.items()`
loop of `_build_routing_table` (ospf_router.py lines 209-235): skip self,
resolve the next hop, and record a route only when the next hop is a
known neighbor with a resolvable interface. -/
def rtStep (r : OSPFRouter) (previous : List (String × String))
    (rt : List (String × Route)) (p : String × EInt) :
    List (String × Route) :=
  let destRouter := p.1
  let cost := p.2
  if destRouter = r.router_id then rt
  else
    match findNextHop r.router_id destRouter previous with
    | none => rt
    | some nextHop =>
      if alMem nextHop r.neighbors then
        match getInterfaceToNeighbor r nextHop with
        | some iface =>
          let pfx := destRouter ++ "/32"
          alUpdate pfx
            { pfx := pfx, next_hop := nextHop, cost := cost,
              iface := iface } rt
        | none => rt
      else rt

/-- `_build_routing_table` (ospf_router.py lines 205-235).  The routing
table is reset and repopulated by the iteration `rtStep`.  (The `via`
string computed by the source is discarded there and has no effect on
state.) -/
def buildRoutingTable (r : OSPFRouter) (distances : List (String × EInt))
    (previous : List (String × String)) : OSPFRouter :=
  { r with routing_table := distances.foldl (rtStep r previous) [] }

/-- `calculate_spf` (ospf_router.py lines 163-203). -/
def calculateSpf (r : OSPFRouter) : OSPFRouter :=
  if r.lsdb.length < 2 then r
  else
    let graph := buildGraph r.lsdb
    let unvisited := r.lsdb.map Prod.fst
    let dp := dijkstraLoop graph unvisited.length unvisited
      ([(r.router_id, some 0)], [])
    buildRoutingTable r dp.1 dp.2

/-- ISIS graph construction (isis_router.py lines 169-178): identical to
the OSPF one, reading the `neighbor_system_id` key. -/
def isisBuildGraph (lsdb : List (String × LSP)) :
    List (String × List (String × Int)) :=
  lsdb.map fun p =>
    (p.1, p.2.links.filterMap fun link =>
      match link.neighbor_router_id with
      | some nid =>
        if nid ≠ "" ∧ alMem nid lsdb then some (nid, link.cost) else none
      | none => none)

/-- ISIS `_get_interface_to_neighbor` (isis_router.py lines 248-253). -/
def isisGetInterfaceToNeighbor (r : ISISRouter) (neighborId : String) :
    Option String :=
  (r.interfaces.find? fun p => p.2.neighbors.contains neighborId).map Prod.fst

/-- ISIS `_build_routing_table` (isis_router.py lines 206-228).
`_find_next_hop` (lines 230-246) is character-for-character the OSPF one,
so `findNextHop` is reused. -/
def isisBuildRoutingTable (r : ISISRouter) (distances : List (String × EInt))
    (previous : List (String × String)) : ISISRouter :=
  let rt := distances.foldl
    (fun rt p =>
      let destSystem := p.1
      let cost := p.2
      if destSystem = r.system_id then rt
      else
        match findNextHop r.system_id destSystem previous with
        | none => rt
        | some nextHop =>
          if alMem nextHop r.neighbors then
            match isisGetInterfaceToNeighbor r nextHop with
            | some iface =>
              let pfx := destSystem ++ "/32"
              alUpdate pfx
                { pfx := pfx, next_hop := nextHop, cost := cost,
                  iface := iface, level := r.level } rt
            | none => rt
          else rt)
    []
  { r with routing_table := rt }

/-- ISIS `calculate_spf` (isis_router.py lines 164-204). -/
def isisCalculateSpf (r : ISISRouter) : ISISRouter :=
  if r.lsdb.length < 2 then r
  else
    let graph := isisBuildGraph r.lsdb
    let unvisited := r.lsdb.map Prod.fst
    let dp := dijkstraLoop graph unvisited.length unvisited
      ([(r.system_id, some 0)], [])
    isisBuildRoutingTable r dp.1 dp.2

/-! ### Network simulator (src/ospf_network.py) -/

/-- The state of `OSPFNetwork` (ospf_network.py lines 11-16). -/
structure OSPFNetwork where
  routers : List (String × OSPFRouter)
  links : List (String × String × String × String)
  deriving DecidableEq, Repr

/-- `add_router` (ospf_network.py lines 18-22). -/
def addRouter (net : OSPFNetwork) (routerId areaId : String) : OSPFNetwork :=
  { net with routers := alUpdate routerId (initRouter routerId areaId) net.routers }

/-- Append a link entry to the stored self LSA
(`router.lsdb[router.router_id].links.append({...})`,
ospf_network.py lines 42-53). -/
def appendSelfLink (r : OSPFRouter) (link : Link) : OSPFRouter :=
  let upd : LSA → LSA := fun lsa => { lsa with links := lsa.links ++ [link] }
  { r with lsdb := alModify r.router_id upd r.lsdb }

/-- Direct neighbor-entry assignment done by `connect_routers`
(ospf_network.py lines 56-68): state `INIT`, fresh timestamp, plus adding
the peer to the interface's neighbor set. -/
def wireNeighbor (r : OSPFRouter) (peerId iface : String) (now : Nat) :
    OSPFRouter :=
  let info : NeighborInfo :=
    { state := OSPFState.INIT, lastHello := now, iface := iface }
  let r := { r with neighbors := alUpdate peerId info r.neighbors }
  let upd : IfaceInfo → IfaceInfo :=
    fun i => { i with neighbors := setAdd peerId i.neighbors }
  { r with interfaces := alModify iface upd r.interfaces }

/-- `connect_routers` (ospf_network.py lines 24-74).  Fails (Python raises
`ValueError`) when either router is missing. -/
def connectRouters (net : OSPFNetwork) (router1Id router2Id : String)
    (interface1 interface2 ip1 ip2 : String) (cost : Int) (now : Nat) :
    Option OSPFNetwork :=
  match alGet router1Id net.routers, alGet router2Id net.routers with
  | some router1, some router2 =>
    let router1 := addInterface router1 interface1 ip1 "255.255.255.0" cost
    let router2 := addInterface router2 interface2 ip2 "255.255.255.0" cost
    let links := net.links ++ [(router1Id, router2Id, interface1, interface2)]
    let router1 := appendSelfLink router1
      { iface := interface1, ip := ip1, cost := cost,
        neighbor_router_id := some router2Id }
    let router2 := appendSelfLink router2
      { iface := interface2, ip := ip2, cost := cost,
        neighbor_router_id := some router1Id }
    let router1 := wireNeighbor router1 router2Id interface1 now
    let router2 := wireNeighbor router2 router1Id interface2 now
    let router1 := (receiveHello router1 router2Id interface1 now).1
    let router2 := (receiveHello router2 router1Id interface2 now).1
    some { routers := alUpdate router2Id router2
            (alUpdate router1Id router1 net.routers),
           links := links }
  | _, _ => none

/-- Delivery of a record to one router of the network
(`network.routers[target].receive_lsa(lsa, fromRouter)`): only the target
router's state changes. -/
def netReceiveLsa (net : OSPFNetwork) (targetId : String) (lsa : LSA)
    (fromRouter : String) : OSPFNetwork :=
  match alGet targetId net.routers with
  | some r =>
    { net with routers := alUpdate targetId (receiveLsa r lsa fromRouter).router net.routers }
  | none => net

/-- The manual LSA-exchange pass of src/demo.py lines 41-47: for each
router in order, for each of its neighbors present in the network, deliver
every record of the neighbor's current LSDB to the router. -/
def demoExchangePass (net : OSPFNetwork) : OSPFNetwork :=
  (net.routers.map Prod.fst).foldl
    (fun net rid =>
      match alGet rid net.routers with
      | none => net
      | some r =>
        (r.neighbors.map Prod.fst).foldl
          (fun net nid =>
            match alGet nid net.routers with
            | none => net
            | some nr =>
              nr.lsdb.foldl
                (fun net p => netReceiveLsa net rid p.2 nid)
                net)
          net)
    net

/-! ### Helper lemmas about the dictionary model -/

theorem alGet_alModify (k k' : String) (f : α → α) (l : List (String × α)) :
    alGet k (alModify k' f l) =
      if k' = k then (alGet k l).map f else alGet k l := by
  induction l with
  | nil => simp [alGet, alModify]
  | cons hd tl ih =>
    obtain ⟨k₀, v₀⟩ := hd
    by_cases h₀ : k₀ = k'
    · subst h₀
      by_cases h₁ : k₀ = k <;> simp [alGet, alModify, h₁]
    · by_cases h₁ : k₀ = k
      · subst h₁
        have : ¬ k' = k₀ := fun h => h₀ h.symm
        simp [alGet, alModify, h₀, this]
      · simp [alGet, alModify, h₀, h₁, ih]

theorem mem_alUpdate (k : String) (v : α) (l : List (String × α))
    (e : String × α) (h : e ∈ alUpdate k v l) : e = (k, v) ∨ e ∈ l := by
  induction l with
  | nil => simpa [alUpdate] using h
  | cons hd tl ih =>
    obtain ⟨k₀, v₀⟩ := hd
    by_cases h₀ : k₀ = k
    · subst h₀
      rcases (by simpa [alUpdate] using h : e = (k₀, v) ∨ e ∈ tl) with h₁ | h₁
      · exact Or.inl h₁
      · exact Or.inr (List.mem_cons_of_mem _ h₁)
    · rcases (by simpa [alUpdate, h₀] using h :
        e = (k₀, v₀) ∨ e ∈ alUpdate k v tl) with h₁ | h₁
      · exact Or.inr (by simp [h₁])
      · rcases ih h₁ with h₂ | h₂
        · exact Or.inl h₂
        · exact Or.inr (List.mem_cons_of_mem _ h₂)

theorem alGet_of_mem_nodup (k : String) (v : α) (l : List (String × α))
    (hmem : (k, v) ∈ l) (hnd : (l.map Prod.fst).Nodup) :
    alGet k l = some v := by
  induction l with
  | nil => simp at hmem
  | cons hd tl ih =>
    obtain ⟨k₀, v₀⟩ := hd
    simp only [List.map_cons, List.nodup_cons] at hnd
    rcases List.mem_cons.mp hmem with h | h
    · have hk : k = k₀ := (Prod.mk.injEq .. ▸ h).1
      have hv : v = v₀ := (Prod.mk.injEq .. ▸ h).2
      simp [alGet, hk, hv]
    · have hk₀ : k₀ ≠ k := by
        intro he
        subst he
        exact hnd.1 (List.mem_map_of_mem Prod.fst h)
      simp [alGet, hk₀, ih h hnd.2]

theorem alModify_keys (k : String) (f : α → α) (l : List (String × α)) :
    (alModify k f l).map Prod.fst = l.map Prod.fst := by
  induction l with
  | nil => rfl
  | cons hd tl ih =>
    obtain ⟨k₀, v₀⟩ := hd
    by_cases h₀ : k₀ = k <;> simp [alModify, h₀, ih]

theorem mem_keys_alUpdate (k k' : String) (v : α) (l : List (String × α))
    (h : k' ∈ (alUpdate k v l).map Prod.fst) :
    k' = k ∨ k' ∈ l.map Prod.fst := by
  obtain ⟨e, he, hfst⟩ := List.mem_map.mp h
  rcases mem_alUpdate k v l e he with h₁ | h₁
  · subst h₁
    exact Or.inl hfst.symm
  · exact Or.inr (hfst ▸ List.mem_map_of_mem Prod.fst h₁)

theorem alUpdate_keys_nodup (k : String) (v : α) (l : List (String × α))
    (hnd : (l.map Prod.fst).Nodup) : ((alUpdate k v l).map Prod.fst).Nodup := by
  induction l with
  | nil => simp [alUpdate]
  | cons hd tl ih =>
    obtain ⟨k₀, v₀⟩ := hd
    simp only [List.map_cons, List.nodup_cons] at hnd
    by_cases h₀ : k₀ = k
    · subst h₀
      simpa [alUpdate] using hnd
    · have : alUpdate k v ((k₀, v₀) :: tl) = (k₀, v₀) :: alUpdate k v tl := by
        simp [alUpdate, h₀]
      rw [this, List.map_cons, List.nodup_cons]
      refine ⟨?_, ih hnd.2⟩
      intro hmem
      rcases mem_keys_alUpdate k k₀ v tl hmem with h₁ | h₁
      · exact h₀ h₁
      · exact hnd.1 h₁

theorem alGet_map_pair (f : α → β) (k : String) (l : List (String × α)) :
    alGet k (l.map fun p => (p.1, f p.2)) = (alGet k l).map f := by
  induction l with
  | nil => rfl
  | cons hd tl ih =>
    obtain ⟨k₀, v₀⟩ := hd
    by_cases h₀ : k₀ = k <;> simp [alGet, h₀, ih]

theorem alGet_buildGraph (k : String) (lsdb : List (String × LSA)) :
    alGet k (buildGraph lsdb) =
      (alGet k lsdb).map fun lsa =>
        lsa.links.filterMap fun link =>
          match link.neighbor_router_id with
          | some nid =>
            if nid ≠ "" ∧ alMem nid lsdb then some (nid, link.cost) else none
          | none => none := by
  unfold buildGraph
  exact alGet_map_pair
    (fun lsa : LSA =>
      lsa.links.filterMap fun link =>
        match link.neighbor_router_id with
        | some nid =>
          if nid ≠ "" ∧ alMem nid lsdb then some (nid, link.cost) else none
        | none => none)
    k lsdb

/-! ### Claim theorems -/

/-- C7: if fewer than two origins are present in the LSDB,
`calculate_spf` returns immediately without modifying the routing table
or any other router state, in both the OSPF-style and ISIS-style
variants: the resulting router equals the input router. -/
theorem c7_spf_noop_small_lsdb (r : OSPFRouter) (ri : ISISRouter)
    (h : r.lsdb.length < 2) (hi : ri.lsdb.length < 2) :
    calculateSpf r = r ∧ isisCalculateSpf ri = ri := by
  constructor
  · unfold calculateSpf
    simp [h]
  · unfold isisCalculateSpf
    simp [hi]

/-- Witness for C7 at a freshly initialized router (one LSDB entry). -/
theorem c7_spf_noop_small_lsdb_witness :
    (initRouter "1.1.1.1" "0.0.0.0").lsdb.length < 2 ∧
    (initIsisRouter "0000.0000.0001" ISISLevel.LEVEL_1).lsdb.length < 2 ∧
    calculateSpf (initRouter "1.1.1.1" "0.0.0.0") =
      initRouter "1.1.1.1" "0.0.0.0" ∧
    isisCalculateSpf (initIsisRouter "0000.0000.0001" ISISLevel.LEVEL_1) =
      initIsisRouter "0000.0000.0001" ISISLevel.LEVEL_1 := by
  refine ⟨by decide, by decide, ?_⟩
  have h := c7_spf_noop_small_lsdb (initRouter "1.1.1.1" "0.0.0.0")
    (initIsisRouter "0000.0000.0001" ISISLevel.LEVEL_1) (by decide) (by decide)
  exact ⟨h.1, h.2⟩

/-- C10: `add_interface` rebuilds the self record from scratch: sequence
0, link entries carrying only interface name, address and cost (no
neighbor identifier, so any `neighbor_router_id` entries appended by
`connect_routers` are discarded), and consequently the self record
contributes no edges to the SPF graph built from the resulting LSDB. -/
theorem c10_addInterface_resets_self_record (r : OSPFRouter)
    (iface ip mask : String) (cost : Int) :
    alGet (addInterface r iface ip mask cost).router_id
        (addInterface r iface ip mask cost).lsdb =
      some { router_id := (addInterface r iface ip mask cost).router_id,
             sequence := 0,
             links := (addInterface r iface ip mask cost).interfaces.map ifaceLink,
             age := 0 } ∧
    ((addInterface r iface ip mask cost).interfaces.map ifaceLink).all
      (fun l => l.neighbor_router_id = none) = true ∧
    alGet (addInterface r iface ip mask cost).router_id
        (buildGraph (addInterface r iface ip mask cost).lsdb) = some [] := by
  have h1 : alGet (addInterface r iface ip mask cost).router_id
      (addInterface r iface ip mask cost).lsdb =
      some { router_id := (addInterface r iface ip mask cost).router_id,
             sequence := 0,
             links := (addInterface r iface ip mask cost).interfaces.map ifaceLink,
             age := 0 } := by
    simp [addInterface, createSelfLsa, alGet_alUpdate_self]
  refine ⟨h1, ?_, ?_⟩
  · apply List.all_eq_true.mpr
    intro x hx
    obtain ⟨p, _, rfl⟩ := List.mem_map.mp hx
    rfl
  · rw [alGet_buildGraph, h1]
    show some _ = some []
    congr 1
    simp only [List.filterMap_map]
    apply List.filterMap_eq_nil_iff.mpr
    intro a _
    rfl

theorem receiveLsa_stored_after (r : OSPFRouter) (lsa : LSA) (f : String) :
    ∃ l', alGet lsa.router_id (receiveLsa r lsa f).router.lsdb = some l' ∧
      lsa.sequence ≤ l'.sequence := by
  cases h : alGet lsa.router_id r.lsdb with
  | none =>
    exact ⟨lsa, by simp [receiveLsa, h, alGet_alUpdate_self], le_refl _⟩
  | some stored =>
    by_cases hs : lsa.sequence > stored.sequence
    · exact ⟨lsa, by simp [receiveLsa, h, hs, alGet_alUpdate_self], le_refl _⟩
    · exact ⟨stored, by simp [receiveLsa, h, hs], le_of_not_lt hs⟩

theorem receiveLsp_stored_after (r : ISISRouter) (lsp : LSP) (f : String) :
    ∃ l', alGet lsp.system_id (receiveLsp r lsp f).router.lsdb = some l' ∧
      lsp.sequence ≤ l'.sequence := by
  cases h : alGet lsp.system_id r.lsdb with
  | none =>
    exact ⟨lsp, by simp [receiveLsp, h, alGet_alUpdate_self], le_refl _⟩
  | some stored =>
    by_cases hs : lsp.sequence > stored.sequence
    · exact ⟨lsp, by simp [receiveLsp, h, hs, alGet_alUpdate_self], le_refl _⟩
    · exact ⟨stored, by simp [receiveLsp, h, hs], le_of_not_lt hs⟩

theorem receiveLsa_discard (r : OSPFRouter) (lsa : LSA) (g : String)
    (l' : LSA) (h1 : alGet lsa.router_id r.lsdb = some l')
    (h2 : lsa.sequence ≤ l'.sequence) :
    receiveLsa r lsa g = { router := r, flooded := none } := by
  simp [receiveLsa, h1, not_lt_of_le h2]

theorem receiveLsp_discard (r : ISISRouter) (lsp : LSP) (g : String)
    (l' : LSP) (h1 : alGet lsp.system_id r.lsdb = some l')
    (h2 : lsp.sequence ≤ l'.sequence) :
    receiveLsp r lsp g = { router := r, flooded := none } := by
  simp [receiveLsp, h1, not_lt_of_le h2]

/-- C1: the acceptance rule of `_receive_lsa` / `_receive_lsp`.  If the
origin is absent, the record is stored (and the flood step runs); if the
incoming sequence is strictly greater than the stored one, the record
replaces the stored one (and the flood step runs); otherwise the whole
router state is unchanged, the flood step does not run, and no error can
be raised (both functions are total).  Consequently a second delivery of
the same record (same origin, same sequence, any sender) changes nothing
and floods nothing. -/
theorem c1_receive_record_acceptance (r : OSPFRouter) (lsa : LSA)
    (f g : String) (ri : ISISRouter) (lsp : LSP) (fi gi : String) :
    (alGet lsa.router_id r.lsdb = none →
      (receiveLsa r lsa f).router =
        { r with lsdb := alUpdate lsa.router_id lsa r.lsdb } ∧
      (receiveLsa r lsa f).flooded.isSome = true) ∧
    (∀ stored, alGet lsa.router_id r.lsdb = some stored →
      lsa.sequence > stored.sequence →
      (receiveLsa r lsa f).router =
        { r with lsdb := alUpdate lsa.router_id lsa r.lsdb } ∧
      (receiveLsa r lsa f).flooded.isSome = true) ∧
    (∀ stored, alGet lsa.router_id r.lsdb = some stored →
      ¬ lsa.sequence > stored.sequence →
      receiveLsa r lsa f = { router := r, flooded := none }) ∧
    (receiveLsa (receiveLsa r lsa f).router lsa g =
      { router := (receiveLsa r lsa f).router, flooded := none }) ∧
    (alGet lsp.system_id ri.lsdb = none →
      (receiveLsp ri lsp fi).router =
        { ri with lsdb := alUpdate lsp.system_id lsp ri.lsdb } ∧
      (receiveLsp ri lsp fi).flooded.isSome = true) ∧
    (∀ stored, alGet lsp.system_id ri.lsdb = some stored →
      lsp.sequence > stored.sequence →
      (receiveLsp ri lsp fi).router =
        { ri with lsdb := alUpdate lsp.system_id lsp ri.lsdb } ∧
      (receiveLsp ri lsp fi).flooded.isSome = true) ∧
    (∀ stored, alGet lsp.system_id ri.lsdb = some stored →
      ¬ lsp.sequence > stored.sequence →
      receiveLsp ri lsp fi = { router := ri, flooded := none }) ∧
    (receiveLsp (receiveLsp ri lsp fi).router lsp gi =
      { router := (receiveLsp ri lsp fi).router, flooded := none }) := by
  refine ⟨?_, ?_, ?_, ?_, ?_, ?_, ?_, ?_⟩
  · intro h
    constructor <;> simp [receiveLsa, h]
  · intro stored h hs
    constructor <;> simp [receiveLsa, h, hs]
  · intro stored h hs
    simp [receiveLsa, h, hs]
  · obtain ⟨l', h1, h2⟩ := receiveLsa_stored_after r lsa f
    exact receiveLsa_discard _ lsa g l' h1 h2
  · intro h
    constructor <;> simp [receiveLsp, h]
  · intro stored h hs
    constructor <;> simp [receiveLsp, h, hs]
  · intro stored h hs
    simp [receiveLsp, h, hs]
  · obtain ⟨l', h1, h2⟩ := receiveLsp_stored_after ri lsp fi
    exact receiveLsp_discard _ lsp gi l' h1 h2

/-- Witness for C1: a record with a fresh origin is stored by a fresh
router, and a second delivery of the same record is discarded with no
state change and no flood, in both variants. -/
theorem c1_receive_record_acceptance_witness :
    ((receiveLsa (initRouter "B" "0.0.0.0")
        { router_id := "Z", sequence := 3 } "A").router =
      { initRouter "B" "0.0.0.0" with
          lsdb := alUpdate "Z" { router_id := "Z", sequence := 3 }
            (initRouter "B" "0.0.0.0").lsdb } ∧
     (receiveLsa (initRouter "B" "0.0.0.0")
        { router_id := "Z", sequence := 3 } "A").flooded.isSome = true) ∧
    (receiveLsa
        (receiveLsa (initRouter "B" "0.0.0.0")
          { router_id := "Z", sequence := 3 } "A").router
        { router_id := "Z", sequence := 3 } "A" =
      { router := (receiveLsa (initRouter "B" "0.0.0.0")
          { router_id := "Z", sequence := 3 } "A").router, flooded := none }) ∧
    (receiveLsp
        (receiveLsp (initIsisRouter "B" ISISLevel.LEVEL_1)
          { system_id := "Z", sequence := 3 } "A").router
        { system_id := "Z", sequence := 3 } "A" =
      { router := (receiveLsp (initIsisRouter "B" ISISLevel.LEVEL_1)
          { system_id := "Z", sequence := 3 } "A").router, flooded := none }) := by
  have h := c1_receive_record_acceptance (initRouter "B" "0.0.0.0")
    { router_id := "Z", sequence := 3 } "A" "A"
    (initIsisRouter "B" ISISLevel.LEVEL_1) { system_id := "Z", sequence := 3 }
    "A" "A"
  exact ⟨h.1 (by decide), h.2.2.2.1, h.2.2.2.2.2.2.2⟩

/-- The empty `OSPFNetwork`. -/
def emptyNet : OSPFNetwork := { routers := [], links := [] }

/-- The A-B-C line topology of the convergence scenario: three routers,
two cost-10 links wired by `connect_routers` (which also delivers the
mutual hello in each direction). -/
def lineBaseNet : Option OSPFNetwork :=
  let net := addRouter (addRouter (addRouter emptyNet "A" "0.0.0.0")
    "B" "0.0.0.0") "C" "0.0.0.0"
  match connectRouters net "A" "B" "eth0" "eth0" "10.1.12.1" "10.1.12.2" 10 0 with
  | none => none
  | some net => connectRouters net "B" "C" "eth1" "eth0" "10.1.23.2" "10.1.23.3" 10 1

/-- The line topology after a full record exchange: two passes of the
manual exchange loop of src/demo.py, after which every router's LSDB
holds all three origins. -/
def lineExchanged : Option OSPFNetwork :=
  lineBaseNet.map fun net => demoExchangePass (demoExchangePass net)

/-- C4: in the A-B-C line with cost-10 links, after the mutual hellos
performed by `connect_routers` (adjacencies `FULL` both ways between A
and B) and a full record exchange (A's LSDB holds origins A, B, C),
running `calculate_spf` at A yields a routing-table entry for C with cost
20 and next hop B (over interface eth0). -/
theorem c4_line_convergence :
    (lineExchanged.bind fun net => (alGet "A" net.routers).map fun a =>
       (a.lsdb.map Prod.fst,
        (alGet "B" a.neighbors).map NeighborInfo.state,
        alGet "C/32" (calculateSpf a).routing_table))
      = some (["A", "B", "C"], some OSPFState.FULL,
          some { pfx := "C/32", next_hop := "B", cost := some 20,
                 iface := "eth0" }) ∧
    (lineExchanged.bind fun net => (alGet "B" net.routers).map fun b =>
       (alGet "A" b.neighbors).map NeighborInfo.state)
      = some (some OSPFState.FULL) := by
  constructor <;> rfl

/-- Sequence bookkeeping of one `_receive_lsa` call at a present origin:
the stored sequence becomes the maximum of the old one and the incoming
one when the record claims this origin, and is untouched otherwise. -/
theorem receiveLsa_seq_step (r : OSPFRouter) (lsa : LSA) (f : String)
    (origin : String) (l : LSA) (h : alGet origin r.lsdb = some l) :
    (alGet origin (receiveLsa r lsa f).router.lsdb).map LSA.sequence =
      some (if lsa.router_id = origin then max l.sequence lsa.sequence
            else l.sequence) := by
  by_cases ho : lsa.router_id = origin
  · subst ho
    by_cases hs : lsa.sequence > l.sequence
    · simp [receiveLsa, h, hs, alGet_alUpdate_self,
        max_eq_right (le_of_lt hs)]
    · simp [receiveLsa, h, hs, max_eq_left (le_of_not_lt hs)]
  · cases hg : alGet lsa.router_id r.lsdb with
    | none =>
      simp [receiveLsa, hg, alGet_alUpdate_ne _ _ _ _ ho, h, ho]
    | some stored =>
      by_cases hs : lsa.sequence > stored.sequence
      · simp [receiveLsa, hg, hs, alGet_alUpdate_ne _ _ _ _ ho, h, ho]
      · simp [receiveLsa, hg, hs, h, ho]

/-- A sequence of `receive_lsa` deliveries, each a record plus its
claimed sender, applied in order. -/
def applyReceives (r : OSPFRouter) : List (LSA × String) → OSPFRouter
  | [] => r
  | e :: rest => applyReceives (receiveLsa r e.1 e.2).router rest

/-- C5 counterexample: the claim fails as stated.  A router accepts a
received record claiming its own id with sequence 5 (stored sequence
becomes 5), and a subsequent `add_interface` regenerates the self record
with sequence 0: the stored sequence for that origin decreases from 5 to
0 under an operation the claim says preserves the maximum. -/
theorem c5_counterexample_addInterface_drops_sequence :
    (alGet "A" ((receiveLsa (initRouter "A" "0.0.0.0")
        { router_id := "A", sequence := 5 } "B").router).lsdb).map
      LSA.sequence = some 5 ∧
    (alGet "A" (addInterface
        (receiveLsa (initRouter "A" "0.0.0.0")
          { router_id := "A", sequence := 5 } "B").router
        "eth0" "10.0.0.1" "255.255.255.0" 10).lsdb).map
      LSA.sequence = some 0 := by
  constructor <;> rfl

/-- C5 (amended): restricted to `receive_lsa` calls the invariant does
hold — for an origin present in the LSDB, after any sequence of
deliveries the stored sequence number equals the maximum of its prior
value and every sequence received for that origin (hence it never
decreases across `receive_lsa` calls).  `add_interface` is excluded: it
resets the self record's sequence to 0 (see the counterexample). -/
theorem c5_amended_receive_monotonic (r : OSPFRouter)
    (evs : List (LSA × String)) (origin : String) (l : LSA)
    (h : alGet origin r.lsdb = some l) :
    (alGet origin (applyReceives r evs).lsdb).map LSA.sequence =
      some (evs.foldl
        (fun m e => if e.1.router_id = origin then max m e.1.sequence else m)
        l.sequence) := by
  induction evs generalizing r l with
  | nil => simp [applyReceives, h]
  | cons e rest ih =>
    have hstep := receiveLsa_seq_step r e.1 e.2 origin l h
    cases hget : alGet origin (receiveLsa r e.1 e.2).router.lsdb with
    | none => rw [hget] at hstep; simp at hstep
    | some l1 =>
      rw [hget] at hstep
      have hseq : l1.sequence =
          if e.1.router_id = origin then max l.sequence e.1.sequence
          else l.sequence := by
        simpa using hstep
      rw [applyReceives, ih _ _ hget]
      simp [hseq]

/-- Witness for the amended C5: origin A starts at sequence 0, receives
sequences 5 then 3 for itself and 7 for an unrelated origin; the stored
sequence for A ends at max(0, 5, 3) = 5. -/
theorem c5_amended_receive_monotonic_witness :
    (alGet "A" (applyReceives (initRouter "A" "0.0.0.0")
        [({ router_id := "A", sequence := 5 }, "B"),
         ({ router_id := "A", sequence := 3 }, "C"),
         ({ router_id := "Q", sequence := 7 }, "B")]).lsdb).map
      LSA.sequence = some 5 := by
  have h := c5_amended_receive_monotonic (initRouter "A" "0.0.0.0")
    [({ router_id := "A", sequence := 5 }, "B"),
     ({ router_id := "A", sequence := 3 }, "C"),
     ({ router_id := "Q", sequence := 7 }, "B")]
    "A" { router_id := "A", sequence := 0 } (by rfl)
  exact h.trans (by rfl)

/-- C9 counterexample: the claim fails as stated.  `_receive_lsa` applies
the ordinary acceptance rule to records claiming the local router's own
id: a received record with origin A and sequence 1 replaces A's locally
generated self record (and triggers the flood step). -/
theorem c9_counterexample_self_record_replaced :
    (receiveLsa (initRouter "A" "0.0.0.0")
        { router_id := "A", sequence := 1 } "B").router.lsdb
      = [("A", { router_id := "A", sequence := 1 })] ∧
    (receiveLsa (initRouter "A" "0.0.0.0")
        { router_id := "A", sequence := 1 } "B").flooded.isSome = true := by
  constructor <;> rfl

/-- C9 (amended): a record whose origin equals the local router's id is
subject to the same acceptance rule as any other record — it replaces the
stored self record exactly when its sequence is strictly greater, and is
silently discarded otherwise; there is no special trust in the local view
of the router's own links. -/
theorem c9_amended_self_record_acceptance (r : OSPFRouter) (lsa : LSA)
    (f : String) (stored : LSA) (hself : lsa.router_id = r.router_id)
    (h : alGet r.router_id r.lsdb = some stored) :
    (lsa.sequence > stored.sequence →
      alGet r.router_id (receiveLsa r lsa f).router.lsdb = some lsa) ∧
    (¬ lsa.sequence > stored.sequence →
      receiveLsa r lsa f = { router := r, flooded := none }) := by
  constructor
  · intro hs
    rw [← hself] at h ⊢
    simp [receiveLsa, h, hs, alGet_alUpdate_self]
  · intro hs
    rw [← hself] at h
    exact receiveLsa_discard r lsa f stored h (le_of_not_lt hs)

/-- Witness for the amended C9: a self-origin record with sequence 1
replaces the freshly initialized self record (stored sequence 0). -/
theorem c9_amended_self_record_acceptance_witness :
    alGet "A" ((receiveLsa (initRouter "A" "0.0.0.0")
        { router_id := "A", sequence := 1 } "C").router).lsdb
      = some { router_id := "A", sequence := 1 } := by
  have h := c9_amended_self_record_acceptance (initRouter "A" "0.0.0.0")
    { router_id := "A", sequence := 1 } "C"
    { router_id := "A", sequence := 0 } (by rfl) (by rfl)
  exact h.1 (by decide)

/-- Well-formedness of an LSDB as Python dicts guarantee it: every entry
is keyed by its record's origin id, and keys are distinct.  Holds for
every state reachable through the embedded operations. -/
def WFLsdb (r : OSPFRouter) : Prop :=
  (∀ p ∈ r.lsdb, p.2.router_id = p.1) ∧ (r.lsdb.map Prod.fst).Nodup

/-- ISIS counterpart of `WFLsdb`. -/
def WFLsdbIsis (r : ISISRouter) : Prop :=
  (∀ p ∈ r.lsdb, p.2.system_id = p.1) ∧ (r.lsdb.map Prod.fst).Nodup

theorem sendLsas_fold_aux (r : OSPFRouter) (n : String) (hwf : WFLsdb r)
    (l : List (String × LSA)) (hsub : ∀ p ∈ l, p ∈ r.lsdb) :
    l.foldl
      (fun acc p =>
        let res := receiveLsa acc.1 p.2 n
        (res.router, acc.2 ++ (res.flooded.map fun t => [t]).getD []))
      (r, []) = (r, []) := by
  induction l with
  | nil => rfl
  | cons p rest ih =>
    have hmem : p ∈ r.lsdb := hsub p (List.mem_cons_self _ _)
    have hget : alGet p.2.router_id r.lsdb = some p.2 := by
      rw [hwf.1 p hmem]
      exact alGet_of_mem_nodup p.1 p.2 r.lsdb (by simpa using hmem) hwf.2
    have hdisc := receiveLsa_discard r p.2 n p.2 hget (le_refl _)
    rw [List.foldl_cons]
    simp only [hdisc]
    exact ih fun q hq => hsub q (List.mem_cons_of_mem _ hq)

/-- `_send_lsas` is the identity on the router: every record of the local
LSDB is re-delivered to the local router itself, where it is discarded as
a duplicate (same origin, same sequence); no flood step runs. -/
theorem sendLsas_id (r : OSPFRouter) (n : String) (hwf : WFLsdb r) :
    sendLsas r n = (r, []) :=
  sendLsas_fold_aux r n hwf r.lsdb fun _ hp => hp

theorem sendLsps_fold_aux (r : ISISRouter) (n : String) (hwf : WFLsdbIsis r)
    (l : List (String × LSP)) (hsub : ∀ p ∈ l, p ∈ r.lsdb) :
    l.foldl
      (fun acc p =>
        let res := receiveLsp acc.1 p.2 n
        (res.router, acc.2 ++ (res.flooded.map fun t => [t]).getD []))
      (r, []) = (r, []) := by
  induction l with
  | nil => rfl
  | cons p rest ih =>
    have hmem : p ∈ r.lsdb := hsub p (List.mem_cons_self _ _)
    have hget : alGet p.2.system_id r.lsdb = some p.2 := by
      rw [hwf.1 p hmem]
      exact alGet_of_mem_nodup p.1 p.2 r.lsdb (by simpa using hmem) hwf.2
    have hdisc := receiveLsp_discard r p.2 n p.2 hget (le_refl _)
    rw [List.foldl_cons]
    simp only [hdisc]
    exact ih fun q hq => hsub q (List.mem_cons_of_mem _ hq)

/-- ISIS `_send_lsps` is likewise the identity on the router. -/
theorem sendLsps_id (r : ISISRouter) (n : String) (hwf : WFLsdbIsis r) :
    sendLsps r n = (r, []) :=
  sendLsps_fold_aux r n hwf r.lsdb fun _ hp => hp

theorem WFLsdb_of_eq (r1 r : OSPFRouter) (h : r1.lsdb = r.lsdb)
    (hwf : WFLsdb r) : WFLsdb r1 := by
  constructor
  · rw [h]
    exact hwf.1
  · rw [h]
    exact hwf.2

theorem exchangeLsas_frame (r : OSPFRouter) (n : String) (hwf : WFLsdb r) :
    (exchangeLsas r n).1.lsdb = r.lsdb ∧
    (exchangeLsas r n).1.routing_table = r.routing_table ∧
    (exchangeLsas r n).1.interfaces = r.interfaces := by
  unfold exchangeLsas
  cases h : alGet n r.neighbors with
  | none => exact ⟨rfl, rfl, rfl⟩
  | some info =>
    dsimp only
    by_cases hs : info.state = OSPFState.TWO_WAY
    · have hsend := sendLsas_id (setNeighborState r n OSPFState.EXSTART) n hwf
      simp only [hs, eq_self_iff_true, if_true, hsend]
      exact ⟨rfl, rfl, rfl⟩
    · rw [if_neg hs]
      exact ⟨rfl, rfl, rfl⟩

theorem receiveHello_frame (r : OSPFRouter) (n i : String) (t : Nat)
    (hwf : WFLsdb r) :
    (receiveHello r n i t).1.lsdb = r.lsdb ∧
    (receiveHello r n i t).1.routing_table = r.routing_table ∧
    (receiveHello r n i t).1.interfaces = r.interfaces := by
  have H : ∀ r1 : OSPFRouter, r1.lsdb = r.lsdb →
      r1.routing_table = r.routing_table → r1.interfaces = r.interfaces →
      ((match alGet n r1.neighbors with
        | some info =>
          if info.state = OSPFState.INIT then
            exchangeLsas (setNeighborState r1 n OSPFState.TWO_WAY) n
          else (r1, [])
        | none => (r1, [])) :
        OSPFRouter × List (List String)).1.lsdb = r.lsdb ∧
      ((match alGet n r1.neighbors with
        | some info =>
          if info.state = OSPFState.INIT then
            exchangeLsas (setNeighborState r1 n OSPFState.TWO_WAY) n
          else (r1, [])
        | none => (r1, [])) :
        OSPFRouter × List (List String)).1.routing_table = r.routing_table ∧
      ((match alGet n r1.neighbors with
        | some info =>
          if info.state = OSPFState.INIT then
            exchangeLsas (setNeighborState r1 n OSPFState.TWO_WAY) n
          else (r1, [])
        | none => (r1, [])) :
        OSPFRouter × List (List String)).1.interfaces = r.interfaces := by
    intro r1 h1 h2 h3
    cases hg : alGet n r1.neighbors with
    | none => exact ⟨h1, h2, h3⟩
    | some info =>
      dsimp only
      by_cases hs : info.state = OSPFState.INIT
      · rw [if_pos hs]
        have hex := exchangeLsas_frame (setNeighborState r1 n OSPFState.TWO_WAY)
          n (WFLsdb_of_eq _ r h1 hwf)
        exact ⟨hex.1.trans h1, hex.2.1.trans h2, hex.2.2.trans h3⟩
      · rw [if_neg hs]
        exact ⟨h1, h2, h3⟩
  unfold receiveHello
  cases h : alGet n r.neighbors with
  | none => exact H _ rfl rfl rfl
  | some info => exact H _ rfl rfl rfl

/-- C2 counterexample: the claim fails as stated.  Router A holds origins
A and X; `connect_routers` delivers the mutual hellos, and A's adjacency
to B reaches `FULL` during A's `receive_hello` — yet afterwards B's LSDB
contains neither origin A nor origin X (both of which B's acceptance rule
would have accepted as new): the "exchange" delivered nothing to the
peer. -/
theorem c2_counterexample_peer_receives_nothing :
    ((addRouter (addRouter emptyNet "A" "0.0.0.0") "B" "0.0.0.0"
        |> (netReceiveLsa · "A" { router_id := "X", sequence := 0 } "ext")
        |> (connectRouters · "A" "B" "eth0" "eth0" "10.1.12.1" "10.1.12.2"
              10 0)).bind
      fun net => (alGet "A" net.routers).map fun a =>
        (alMem "X" a.lsdb, alMem "A" a.lsdb,
         (alGet "B" a.neighbors).map NeighborInfo.state))
      = some (true, true, some OSPFState.FULL) ∧
    ((addRouter (addRouter emptyNet "A" "0.0.0.0") "B" "0.0.0.0"
        |> (netReceiveLsa · "A" { router_id := "X", sequence := 0 } "ext")
        |> (connectRouters · "A" "B" "eth0" "eth0" "10.1.12.1" "10.1.12.2"
              10 0)).bind
      fun net => (alGet "B" net.routers).map fun b =>
        (alMem "A" b.lsdb, alMem "X" b.lsdb))
      = some (false, false) := by
  constructor <;> rfl

/-- C2 (amended): reaching the terminal state during `receive_hello`
triggers `_send_lsas`, which re-injects every record of the local LSDB
into the local router itself, naming the peer as sender; by the
acceptance rule each is discarded as a duplicate.  The exchange therefore
leaves every LSDB unchanged (`receive_hello` touches only the neighbor
table), and the peer router — which is not even an argument of the call —
receives nothing.  The same holds for the ISIS variant. -/
theorem c2_amended_exchange_is_local_noop (r : OSPFRouter) (n i : String)
    (t : Nat) (hwf : WFLsdb r) (ri : ISISRouter) (ni : String)
    (hwfi : WFLsdbIsis ri) :
    (receiveHello r n i t).1.lsdb = r.lsdb ∧
    (receiveHello r n i t).1.routing_table = r.routing_table ∧
    (receiveHello r n i t).1.interfaces = r.interfaces ∧
    sendLsas r n = (r, []) ∧
    sendLsps ri ni = (ri, []) := by
  obtain ⟨h1, h2, h3⟩ := receiveHello_frame r n i t hwf
  exact ⟨h1, h2, h3, sendLsas_id r n hwf, sendLsps_id ri ni hwfi⟩

/-- Witness for the amended C2: a fresh router's hello processing drives
the new neighbor to `FULL` yet leaves LSDB, routing table and interfaces
untouched. -/
theorem c2_amended_exchange_is_local_noop_witness :
    (receiveHello (initRouter "A" "0.0.0.0") "B" "eth0" 0).1.lsdb =
      (initRouter "A" "0.0.0.0").lsdb ∧
    sendLsas (initRouter "A" "0.0.0.0") "B" = (initRouter "A" "0.0.0.0", []) ∧
    sendLsps (initIsisRouter "A" ISISLevel.LEVEL_1) "B" =
      (initIsisRouter "A" ISISLevel.LEVEL_1, []) := by
  have h := c2_amended_exchange_is_local_noop (initRouter "A" "0.0.0.0")
    "B" "eth0" 0 (by constructor <;> decide)
    (initIsisRouter "A" ISISLevel.LEVEL_1) "B" (by constructor <;> decide)
  exact ⟨h.1, h.2.2.2.1, h.2.2.2.2⟩

/-- The line topology before any record exchange, with a fresh record for
origin X delivered to B claiming sender A. -/
def c3AfterFlood : Option OSPFNetwork :=
  lineBaseNet.map fun net =>
    netReceiveLsa net "B" { router_id := "X", sequence := 0 } "A"

/-- C3 counterexample: the claim fails as stated.  In the A-B-C line, B
accepts a fresh record for origin X from A; the flood loop fires exactly
for C (B's only `FULL` neighbor other than the sender), yet after the
delivery C's LSDB does not contain origin X: the eligible neighbor's
router receives nothing, because the flood body is a stub. -/
theorem c3_counterexample_flood_delivers_nothing :
    (lineBaseNet.bind fun net => (alGet "B" net.routers).map fun b =>
       ((receiveLsa b { router_id := "X", sequence := 0 } "A").flooded,
        (alGet "C" b.neighbors).map NeighborInfo.state))
      = some (some ["C"], some OSPFState.FULL) ∧
    (c3AfterFlood.bind fun net => (alGet "B" net.routers).map fun b =>
       alMem "X" b.lsdb) = some true ∧
    (c3AfterFlood.bind fun net => (alGet "C" net.routers).map fun c =>
       alMem "X" c.lsdb) = some false := by
  refine ⟨rfl, rfl, rfl⟩

theorem receiveLsa_flooded_targets (r : OSPFRouter) (lsa : LSA) (f : String)
    (ts : List String) (hts : (receiveLsa r lsa f).flooded = some ts) :
    ts = floodTargets r f := by
  cases h : alGet lsa.router_id r.lsdb with
  | none =>
    simp only [receiveLsa, h] at hts
    exact (Option.some.injEq .. ▸ hts).symm
  | some stored =>
    by_cases hs : lsa.sequence > stored.sequence
    · simp only [receiveLsa, h, hs, if_true] at hts
      exact (Option.some.injEq .. ▸ hts).symm
    · simp [receiveLsa, h, hs] at hts

theorem mem_floodTargets (r : OSPFRouter) (f x : String) :
    x ∈ floodTargets r f ↔
      ∃ info, (x, info) ∈ r.neighbors ∧ x ≠ f ∧
        info.state = OSPFState.FULL := by
  unfold floodTargets
  simp only [List.mem_map, List.mem_filter, decide_eq_true_eq]
  constructor
  · rintro ⟨⟨a, info⟩, ⟨hmem, hcond⟩, rfl⟩
    exact ⟨info, hmem, hcond.1, hcond.2⟩
  · rintro ⟨info, hmem, hne, hst⟩
    exact ⟨(x, info), ⟨hmem, hne, hst⟩, rfl⟩

/-- C3 (amended): the flood loop of `_flood_lsa` selects exactly the
neighbors other than the sender whose adjacency is `FULL`, but its body
is a stub (`pass`): no record is delivered to anyone — delivering a
record to one router of the network leaves every other router's state
unchanged, eligible neighbors included. -/
theorem c3_amended_flood_selects_but_delivers_nothing (net : OSPFNetwork)
    (tid : String) (lsa : LSA) (f : String) :
    (∀ rid, rid ≠ tid →
      alGet rid (netReceiveLsa net tid lsa f).routers =
        alGet rid net.routers) ∧
    (∀ r ts, (receiveLsa r lsa f).flooded = some ts →
      ∀ x, x ∈ ts ↔ ∃ info, (x, info) ∈ r.neighbors ∧ x ≠ f ∧
        info.state = OSPFState.FULL) := by
  constructor
  · intro rid hne
    unfold netReceiveLsa
    cases h : alGet tid net.routers with
    | none => rfl
    | some r =>
      dsimp only
      exact alGet_alUpdate_ne rid tid _ _ (Ne.symm hne)
  · intro r ts hts x
    rw [receiveLsa_flooded_targets r lsa f ts hts]
    exact mem_floodTargets r f x

/-- A three-neighbor router used to witness the amended C3: A and C are
`FULL`, D is stuck in `INIT`. -/
def c3WitnessRouter : OSPFRouter :=
  { router_id := "B", area_id := "0.0.0.0",
    neighbors :=
      [("A", { state := OSPFState.FULL, lastHello := 0, iface := "eth0" }),
       ("C", { state := OSPFState.FULL, lastHello := 0, iface := "eth1" }),
       ("D", { state := OSPFState.INIT, lastHello := 0, iface := "eth2" })],
    lsdb := [("B", { router_id := "B" })],
    routing_table := [], interfaces := [] }

/-- Witness for the amended C3: delivering to B leaves C's network entry
untouched, and the flood-target list of B's acceptance of a fresh record
from A is exactly ["C"] (sender A and the non-`FULL` D are excluded). -/
theorem c3_amended_flood_selects_but_delivers_nothing_witness :
    alGet "C" (netReceiveLsa emptyNet "B"
        { router_id := "X", sequence := 0 } "A").routers =
      alGet "C" emptyNet.routers ∧
    "C" ∈ ((receiveLsa c3WitnessRouter
        { router_id := "X", sequence := 0 } "A").flooded.getD []) := by
  have h := c3_amended_flood_selects_but_delivers_nothing emptyNet "B"
    { router_id := "X", sequence := 0 } "A"
  refine ⟨h.1 "C" (by decide), ?_⟩
  exact (h.2 c3WitnessRouter ["C"] (by rfl) "C").mpr
    ⟨{ state := OSPFState.FULL, lastHello := 0, iface := "eth1" },
      by decide, by decide, rfl⟩

theorem append32_inj (a b : String) (h : a ++ "/32" = b ++ "/32") :
    a = b := by
  have hd : (a ++ "/32").data = (b ++ "/32").data := congrArg String.data h
  rw [String.data_append, String.data_append] at hd
  have hlen : a.data.length = b.data.length := by
    have h2 := congrArg List.length hd
    simp only [List.length_append] at h2
    omega
  exact String.ext (List.append_inj hd hlen).1

theorem reverse_append_get1 (bw : List String) (s : String) :
    ((bw ++ [s]).reverse).get? 1 = bw.getLast? := by
  rw [List.reverse_append]
  simp only [List.reverse_cons, List.reverse_nil, List.nil_append,
    List.singleton_append, List.get?_cons_succ]
  rw [List.get?_eq_getElem?, ← List.head?_eq_getElem?, List.head?_reverse]

theorem append_get_len_sub2 (bw : List String) (s : String) (hne : bw ≠ []) :
    (bw ++ [s]).get? ((bw ++ [s]).length - 2) = bw.getLast? := by
  have hlen : (bw ++ [s]).length = bw.length + 1 := by simp
  have hidx : bw.length + 1 - 2 = bw.length - 1 := by omega
  have hlt : bw.length - 1 < bw.length :=
    Nat.sub_lt (List.length_pos.mpr hne) one_pos
  rw [hlen, hidx, List.get?_eq_getElem?, List.getElem?_append_left hlt]
  rw [List.getLast?_eq_getElem?]

/-- The reconstructed path always starts at the computing router. -/
theorem getPath_head (s d : String) (prev : List (String × String)) :
    (getPath s d prev).head? = some s := by
  unfold getPath
  rw [List.reverse_append]
  simp

/-- `_find_next_hop` returns exactly the element at index 1 of the path
`_get_path` reconstructs — the vertex immediately following the source,
not the destination's immediate predecessor. -/
theorem findNextHop_eq_get1 (s d : String) (prev : List (String × String)) :
    findNextHop s d prev = (getPath s d prev).get? 1 := by
  unfold findNextHop getPath
  cases h : alGet d prev with
  | none =>
    have hb : backwardWalk prev (prev.length + 1) d = [] := by
      simp [backwardWalk, h]
    rw [hb]
    rfl
  | some p =>
    dsimp only
    have hb : backwardWalk prev (prev.length + 1) d =
        d :: backwardWalk prev prev.length p := by
      simp [backwardWalk, h]
    rw [hb]
    have hne : d :: backwardWalk prev prev.length p ≠ [] := by simp
    have hge : ((d :: backwardWalk prev prev.length p) ++ [s]).length ≥ 2 := by
      simp only [List.length_append, List.length_cons, List.length_singleton]
      omega
    rw [if_pos hge, append_get_len_sub2 _ s hne, reverse_append_get1]

/-- The per-route facts C6 asserts about an emitted route. -/
def RouteOk (r : OSPFRouter) (previous : List (String × String))
    (dest : String) (route : Route) : Prop :=
  findNextHop r.router_id dest previous = some route.next_hop ∧
  alMem route.next_hop r.neighbors = true ∧
  getInterfaceToNeighbor r route.next_hop = some route.iface ∧
  route.pfx = dest ++ "/32"

theorem rtFold_mem (r : OSPFRouter) (prev : List (String × String))
    (ds : List (String × EInt)) (acc : List (String × Route))
    (hacc : ∀ dest route, alGet (dest ++ "/32") acc = some route →
      RouteOk r prev dest route) :
    ∀ dest route,
      alGet (dest ++ "/32") (ds.foldl (rtStep r prev) acc) = some route →
      RouteOk r prev dest route := by
  induction ds generalizing acc with
  | nil => exact hacc
  | cons p ds ih =>
    rw [List.foldl_cons]
    apply ih
    intro dest route hget
    unfold rtStep at hget
    by_cases hd : p.1 = r.router_id
    · rw [if_pos hd] at hget
      exact hacc dest route hget
    · rw [if_neg hd] at hget
      cases hn : findNextHop r.router_id p.1 prev with
      | none =>
        rw [hn] at hget
        exact hacc dest route hget
      | some nh =>
        rw [hn] at hget
        dsimp only at hget
        by_cases hm : alMem nh r.neighbors
        · rw [if_pos hm] at hget
          cases hi : getInterfaceToNeighbor r nh with
          | none =>
            rw [hi] at hget
            exact hacc dest route hget
          | some ifc =>
            rw [hi] at hget
            dsimp only at hget
            rw [alGet_alUpdate] at hget
            by_cases he : p.1 ++ "/32" = dest ++ "/32"
            · rw [if_pos he] at hget
              have hde : p.1 = dest := append32_inj _ _ he
              subst hde
              cases hget
              exact ⟨hn, hm, hi, rfl⟩
            · rw [if_neg he] at hget
              exact hacc dest route hget
        · rw [if_neg hm] at hget
          exact hacc dest route hget

theorem rtFold_none (r : OSPFRouter) (prev : List (String × String))
    (dest : String)
    (hbad : findNextHop r.router_id dest prev = none ∨
      (∀ nh, findNextHop r.router_id dest prev = some nh →
        alMem nh r.neighbors = false ∨ getInterfaceToNeighbor r nh = none))
    (ds : List (String × EInt)) (acc : List (String × Route))
    (hacc : alGet (dest ++ "/32") acc = none) :
    alGet (dest ++ "/32") (ds.foldl (rtStep r prev) acc) = none := by
  induction ds generalizing acc with
  | nil => exact hacc
  | cons p ds ih =>
    rw [List.foldl_cons]
    apply ih
    unfold rtStep
    by_cases hd : p.1 = r.router_id
    · rw [if_pos hd]
      exact hacc
    · rw [if_neg hd]
      cases hn : findNextHop r.router_id p.1 prev with
      | none => exact hacc
      | some nh =>
        dsimp only
        by_cases hm : alMem nh r.neighbors
        · rw [if_pos hm]
          cases hi : getInterfaceToNeighbor r nh with
          | none => exact hacc
          | some ifc =>
            dsimp only
            rw [alGet_alUpdate]
            by_cases he : p.1 ++ "/32" = dest ++ "/32"
            · exfalso
              have hde : p.1 = dest := append32_inj _ _ he
              subst hde
              rcases hbad with hb | hb
              · rw [hn] at hb
                cases hb
              · rcases hb nh hn with hb1 | hb1
                · rw [hm] at hb1
                  cases hb1
                · rw [hi] at hb1
                  cases hb1
            · rw [if_neg he]
              exact hacc
        · rw [if_neg hm]
          exact hacc

/-- C6: every route emitted by `_build_routing_table` has as next hop the
element at index 1 of the reconstructed predecessor path — the vertex
immediately following the source (which heads the path), not the
destination's immediate predecessor — and is emitted only with that next
hop present in the neighbor table and an interface resolved from the
interface neighbor sets; when the next hop does not resolve, is not a
neighbor, or has no interface, the destination is silently absent from
the routing table. -/
theorem c6_next_hop_first_hop_and_emission (r : OSPFRouter)
    (distances : List (String × EInt)) (previous : List (String × String)) :
    (∀ dest route,
      alGet (dest ++ "/32")
        (buildRoutingTable r distances previous).routing_table = some route →
      findNextHop r.router_id dest previous = some route.next_hop ∧
      (getPath r.router_id dest previous).head? = some r.router_id ∧
      (getPath r.router_id dest previous).get? 1 = some route.next_hop ∧
      alMem route.next_hop r.neighbors = true ∧
      getInterfaceToNeighbor r route.next_hop = some route.iface ∧
      route.pfx = dest ++ "/32") ∧
    (∀ dest,
      (findNextHop r.router_id dest previous = none ∨
        (∀ nh, findNextHop r.router_id dest previous = some nh →
          alMem nh r.neighbors = false ∨
          getInterfaceToNeighbor r nh = none)) →
      alGet (dest ++ "/32")
        (buildRoutingTable r distances previous).routing_table = none) := by
  constructor
  · intro dest route hget
    have hok := rtFold_mem r previous distances []
      (by intro d rt h; simp [alGet] at h) dest route hget
    obtain ⟨h1, h2, h3, h4⟩ := hok
    refine ⟨h1, getPath_head _ _ _, ?_, h2, h3, h4⟩
    rw [← findNextHop_eq_get1]
    exact h1
  · intro dest hbad
    exact rtFold_none r previous dest hbad distances [] rfl

/-- A single-neighbor router used to witness C6. -/
def c6WitnessRouter : OSPFRouter :=
  let nb : NeighborInfo :=
    { state := OSPFState.FULL, lastHello := 0, iface := "eth0" }
  let fi : IfaceInfo :=
    { ip := "10.0.0.1", mask := "255.255.255.0", cost := 10,
      neighbors := ["B"] }
  { router_id := "A", area_id := "0.0.0.0", neighbors := [("B", nb)],
    lsdb := [], routing_table := [], interfaces := [("eth0", fi)] }

/-- Witness for C6: with distances for A, B, C and predecessors B from A
and C from B, the router with neighbor B on eth0 emits C/32 with next hop
B (the first hop on the path A, B, C), and omits the unresolvable
destination D. -/
theorem c6_next_hop_first_hop_and_emission_witness :
    findNextHop "A" "C" [("B", "A"), ("C", "B")] = some "B" ∧
    (getPath "A" "C" [("B", "A"), ("C", "B")]).get? 1 = some "B" ∧
    alGet "D/32" (buildRoutingTable c6WitnessRouter
      [("A", some 0), ("B", some 10), ("C", some 20)]
      [("B", "A"), ("C", "B")]).routing_table = none := by
  have h := c6_next_hop_first_hop_and_emission c6WitnessRouter
    [("A", some 0), ("B", some 10), ("C", some 20)]
    [("B", "A"), ("C", "B")]
  let route0 : Route :=
    { pfx := "C/32", next_hop := "B", cost := some 20, iface := "eth0" }
  have hr := h.1 "C" route0 (by rfl)
  exact ⟨hr.1, hr.2.2.1, h.2 "D" (Or.inl (by rfl))⟩

/-! ### C8: event sequences against one ISIS router -/

/-- An externally driven event against one ISIS router: an IIH hello or a
record delivery. -/
inductive IsisEvent where
  | hello (peer iface : String) (level : ISISLevel) (t : Nat)
  | record (lsp : LSP) (fromRouter : String)
  deriving DecidableEq, Repr

/-- Apply one event, accumulating the flood-target lists produced. -/
def isisStep (st : ISISRouter × List (List String)) (e : IsisEvent) :
    ISISRouter × List (List String) :=
  match e with
  | .hello p i lvl t =>
    let res := isisReceiveHello st.1 p i lvl t
    (res.1, st.2 ++ res.2)
  | .record l f =>
    let res := receiveLsp st.1 l f
    (res.router, st.2 ++ (res.flooded.map fun ts => [ts]).getD [])

/-- Run a sequence of events against a router. -/
def isisRun (r : ISISRouter) (evs : List IsisEvent) :
    ISISRouter × List (List String) :=
  evs.foldl isisStep (r, [])

theorem receiveLsp_neighbors (r : ISISRouter) (lsp : LSP) (f : String) :
    (receiveLsp r lsp f).router.neighbors = r.neighbors ∧
    (receiveLsp r lsp f).router.level = r.level := by
  unfold receiveLsp
  cases h : alGet lsp.system_id r.lsdb with
  | none => exact ⟨rfl, rfl⟩
  | some stored =>
    dsimp only
    by_cases hs : lsp.sequence > stored.sequence
    · rw [if_pos hs]
      exact ⟨rfl, rfl⟩
    · rw [if_neg hs]
      exact ⟨rfl, rfl⟩

theorem receiveLsp_flooded_targets (r : ISISRouter) (lsp : LSP) (f : String)
    (ts : List String) (hts : (receiveLsp r lsp f).flooded = some ts) :
    ts = isisFloodTargets r f := by
  cases h : alGet lsp.system_id r.lsdb with
  | none =>
    simp only [receiveLsp, h] at hts
    exact (Option.some.injEq .. ▸ hts).symm
  | some stored =>
    by_cases hs : lsp.sequence > stored.sequence
    · simp only [receiveLsp, h, hs, if_true] at hts
      exact (Option.some.injEq .. ▸ hts).symm
    · simp [receiveLsp, h, hs] at hts

/-- A peer whose (unique) neighbor entry is `INIT` is never selected by
the `_flood_lsp` loop guard. -/
theorem peer_not_mem_isisFloodTargets (r : ISISRouter) (f peer : String)
    (hnd : (r.neighbors.map Prod.fst).Nodup)
    (hpeer : ∀ info, alGet peer r.neighbors = some info →
      info.state = ISISState.INIT) :
    peer ∉ isisFloodTargets r f := by
  intro hmem
  unfold isisFloodTargets at hmem
  obtain ⟨q, hq, hq1⟩ := List.mem_map.mp hmem
  obtain ⟨hqmem, hqcond⟩ := List.mem_filter.mp hq
  obtain ⟨a, info⟩ := q
  simp only at hq1
  rw [hq1] at hqmem
  have hget : alGet peer r.neighbors = some info :=
    alGet_of_mem_nodup peer info r.neighbors hqmem hnd
  have hinit := hpeer info hget
  have hup : info.state = ISISState.UP := by
    simpa using (decide_eq_true_eq.mp hqcond).2
  rw [hinit] at hup
  cases hup

/-- Invariant carried across events: the router's level is fixed, its
neighbor keys are distinct, and the peer's entry (if any) is `INIT`. -/
def PeerStuck (lr : ISISLevel) (peer : String) (r : ISISRouter) : Prop :=
  r.level = lr ∧ (r.neighbors.map Prod.fst).Nodup ∧
  (∀ info, alGet peer r.neighbors = some info →
    info.state = ISISState.INIT)

theorem sendLsps_fold_stuck (lr : ISISLevel) (peer : String)
    (r0 : ISISRouter) (n : String) (h0 : PeerStuck lr peer r0)
    (l : List (String × LSP)) :
    ∀ acc : ISISRouter × List (List String),
      acc.1.neighbors = r0.neighbors → acc.1.level = r0.level →
      (∀ ts ∈ acc.2, peer ∉ ts) →
      (l.foldl
        (fun acc p =>
          let res := receiveLsp acc.1 p.2 n
          (res.router, acc.2 ++ (res.flooded.map fun t => [t]).getD []))
        acc).1.neighbors = r0.neighbors ∧
      (l.foldl
        (fun acc p =>
          let res := receiveLsp acc.1 p.2 n
          (res.router, acc.2 ++ (res.flooded.map fun t => [t]).getD []))
        acc).1.level = r0.level ∧
      (∀ ts ∈ (l.foldl
        (fun acc p =>
          let res := receiveLsp acc.1 p.2 n
          (res.router, acc.2 ++ (res.flooded.map fun t => [t]).getD []))
        acc).2, peer ∉ ts) := by
  induction l with
  | nil => intro acc h1 h2 h3; exact ⟨h1, h2, h3⟩
  | cons p rest ih =>
    intro acc h1 h2 h3
    rw [List.foldl_cons]
    apply ih
    · exact (receiveLsp_neighbors acc.1 p.2 n).1.trans h1
    · exact (receiveLsp_neighbors acc.1 p.2 n).2.trans h2
    · intro ts hts
      rcases List.mem_append.mp hts with hl | hr
      · exact h3 ts hl
      · cases hfl : (receiveLsp acc.1 p.2 n).flooded with
        | none => rw [hfl] at hr; simp at hr
        | some ts0 =>
          rw [hfl] at hr
          simp only [Option.map_some', Option.getD_some,
            List.mem_singleton] at hr
          have hts0 := receiveLsp_flooded_targets acc.1 p.2 n ts0 hfl
          rw [hr, hts0]
          apply peer_not_mem_isisFloodTargets acc.1 n peer
          · rw [h1]
            exact h0.2.1
          · rw [h1]
            exact h0.2.2

theorem sendLsps_stuck (lr : ISISLevel) (peer : String) (r0 : ISISRouter)
    (n : String) (h0 : PeerStuck lr peer r0) :
    (sendLsps r0 n).1.neighbors = r0.neighbors ∧
    (sendLsps r0 n).1.level = r0.level ∧
    (∀ ts ∈ (sendLsps r0 n).2, peer ∉ ts) := by
  unfold sendLsps
  exact sendLsps_fold_stuck lr peer r0 n h0 r0.lsdb (r0, []) rfl rfl
    (by intro ts hts; simp at hts)

/-- `levelsCompatible` is false on distinct single levels. -/
theorem levelsCompatible_false (l1 l2 : ISISLevel)
    (h1 : l1 ≠ ISISLevel.LEVEL_1_2) (h2 : l2 ≠ ISISLevel.LEVEL_1_2)
    (h3 : l2 ≠ l1) : levelsCompatible l1 l2 = false := by
  cases l1 <;> cases l2 <;> simp_all [levelsCompatible]

theorem isisSetUp_keys (r : ISISRouter) (p : String) :
    (isisSetUp r p).neighbors.map Prod.fst = r.neighbors.map Prod.fst := by
  unfold isisSetUp
  exact alModify_keys _ _ _

theorem alGet_isisSetUp_ne (r : ISISRouter) (p q : String) (h : p ≠ q) :
    alGet q (isisSetUp r p).neighbors = alGet q r.neighbors := by
  unfold isisSetUp
  rw [alGet_alModify]
  simp [h]

theorem isisReceiveHello_stuck (lr : ISISLevel) (peer : String)
    (r : ISISRouter) (p i : String) (lvl : ISISLevel) (t : Nat)
    (hInv : PeerStuck lr peer r)
    (hlvl : p = peer → levelsCompatible lr lvl = false) :
    PeerStuck lr peer (isisReceiveHello r p i lvl t).1 ∧
    (∀ ts ∈ (isisReceiveHello r p i lvl t).2, peer ∉ ts) := by
  obtain ⟨hL, hnd, hpeer⟩ := hInv
  have phase2 : ∀ r1 : ISISRouter, PeerStuck lr peer r1 →
      PeerStuck lr peer
        ((match alGet p r1.neighbors with
          | some info =>
            if info.state = ISISState.INIT then
              if levelsCompatible r1.level lvl then
                sendLsps (isisSetUp r1 p) p
              else (r1, [])
            else (r1, [])
          | none => (r1, [])) :
          ISISRouter × List (List String)).1 ∧
      (∀ ts ∈ ((match alGet p r1.neighbors with
          | some info =>
            if info.state = ISISState.INIT then
              if levelsCompatible r1.level lvl then
                sendLsps (isisSetUp r1 p) p
              else (r1, [])
            else (r1, [])
          | none => (r1, [])) :
          ISISRouter × List (List String)).2, peer ∉ ts) := by
    intro r1 hI1
    obtain ⟨hL1, hnd1, hpeer1⟩ := hI1
    cases hg2 : alGet p r1.neighbors with
    | none => exact ⟨⟨hL1, hnd1, hpeer1⟩, by intro ts hts; simp at hts⟩
    | some info =>
      dsimp only
      by_cases hst : info.state = ISISState.INIT
      · rw [if_pos hst]
        by_cases hc : levelsCompatible r1.level lvl = true
        · have hp : p ≠ peer := by
            intro he
            rw [hL1] at hc
            rw [hlvl he] at hc
            cases hc
          rw [if_pos hc]
          have hI2 : PeerStuck lr peer (isisSetUp r1 p) := by
            refine ⟨hL1, ?_, ?_⟩
            · rw [isisSetUp_keys]
              exact hnd1
            · intro info2 hg3
              rw [alGet_isisSetUp_ne r1 p peer hp] at hg3
              exact hpeer1 info2 hg3
          have hrun := sendLsps_stuck lr peer (isisSetUp r1 p) p hI2
          refine ⟨⟨hrun.2.1.trans hI2.1, ?_, ?_⟩, hrun.2.2⟩
          · have hk := congrArg (List.map Prod.fst) hrun.1
            rw [hk]
            exact hI2.2.1
          · intro info2 hg3
            rw [hrun.1] at hg3
            exact hI2.2.2 info2 hg3
        · rw [if_neg hc]
          exact ⟨⟨hL1, hnd1, hpeer1⟩, by intro ts hts; simp at hts⟩
      · rw [if_neg hst]
        exact ⟨⟨hL1, hnd1, hpeer1⟩, by intro ts hts; simp at hts⟩
  unfold isisReceiveHello
  cases hg : alGet p r.neighbors with
  | none =>
    apply phase2
    refine ⟨hL, alUpdate_keys_nodup _ _ _ hnd, ?_⟩
    intro info hg3
    rw [alGet_alUpdate] at hg3
    by_cases hp : p = peer
    · rw [if_pos hp] at hg3
      cases hg3
      rfl
    · rw [if_neg hp] at hg3
      exact hpeer info hg3
  | some info0 =>
    apply phase2
    refine ⟨hL, alUpdate_keys_nodup _ _ _ hnd, ?_⟩
    intro info hg3
    rw [alGet_alUpdate] at hg3
    by_cases hp : p = peer
    · rw [if_pos hp] at hg3
      cases hg3
      exact hpeer info0 (hp ▸ hg)
    · rw [if_neg hp] at hg3
      exact hpeer info hg3

theorem isisRun_fold_stuck (lr : ISISLevel) (peer : String) (pl : ISISLevel)
    (hr12 : lr ≠ ISISLevel.LEVEL_1_2) (hp12 : pl ≠ ISISLevel.LEVEL_1_2)
    (hne : pl ≠ lr) (evs : List IsisEvent) :
    ∀ acc : ISISRouter × List (List String),
      PeerStuck lr peer acc.1 → (∀ ts ∈ acc.2, peer ∉ ts) →
      (∀ e ∈ evs, ∀ i lvl t, e = IsisEvent.hello peer i lvl t → lvl = pl) →
      PeerStuck lr peer (evs.foldl isisStep acc).1 ∧
      (∀ ts ∈ (evs.foldl isisStep acc).2, peer ∉ ts) := by
  induction evs with
  | nil =>
    intro acc h1 h2 _
    exact ⟨h1, h2⟩
  | cons e rest ih =>
    intro acc h1 h2 hevs
    rw [List.foldl_cons]
    have hevs' : ∀ e' ∈ rest, ∀ i lvl t,
        e' = IsisEvent.hello peer i lvl t → lvl = pl :=
      fun e' he' => hevs e' (List.mem_cons_of_mem _ he')
    cases e with
    | hello p i lvl t =>
      have hstk := isisReceiveHello_stuck lr peer acc.1 p i lvl t h1
        (by
          intro hp
          have hlvl := hevs _ (List.mem_cons_self _ _) i lvl t (by rw [hp])
          rw [hlvl]
          exact levelsCompatible_false lr pl hr12 hp12 hne)
      refine ih _ hstk.1 ?_ hevs'
      intro ts hts
      rcases List.mem_append.mp hts with ha | hb
      · exact h2 ts ha
      · exact hstk.2 ts hb
    | record l f =>
      obtain ⟨hL, hnd, hpeer⟩ := h1
      have hnb := receiveLsp_neighbors acc.1 l f
      refine ih _ ⟨hnb.2.trans hL, ?_, ?_⟩ ?_ hevs'
      · dsimp only [isisStep]
        rw [congrArg (List.map Prod.fst) hnb.1]
        exact hnd
      · intro info hg
        dsimp only [isisStep] at hg
        rw [hnb.1] at hg
        exact hpeer info hg
      · intro ts hts
        rcases List.mem_append.mp hts with ha | hb
        · exact h2 ts ha
        · cases hfl : (receiveLsp acc.1 l f).flooded with
          | none =>
            rw [hfl] at hb
            simp at hb
          | some ts0 =>
            rw [hfl] at hb
            simp only [Option.map_some', Option.getD_some,
              List.mem_singleton] at hb
            have hts0 := receiveLsp_flooded_targets acc.1 l f ts0 hfl
            rw [hb, hts0]
            exact peer_not_mem_isisFloodTargets acc.1 f peer hnd hpeer

/-- C8: `_levels_compatible` holds exactly when either side advertises
the both-levels capability or both advertise the same level; and a peer
advertising a single level disjoint from the local router's single level
keeps an `INIT` neighbor entry across any sequence of hello and record
events — it never reaches `UP` — and no flood-target list produced during
those events ever names that peer. -/
theorem c8_incompatible_peer_stuck_in_init (r : ISISRouter) (peer : String)
    (pl : ISISLevel) (evs : List IsisEvent)
    (hr12 : r.level ≠ ISISLevel.LEVEL_1_2)
    (hp12 : pl ≠ ISISLevel.LEVEL_1_2) (hne : pl ≠ r.level)
    (hnd : (r.neighbors.map Prod.fst).Nodup)
    (hpeer : ∀ info, alGet peer r.neighbors = some info →
      info.state = ISISState.INIT)
    (hevs : ∀ e ∈ evs, ∀ i lvl t,
      e = IsisEvent.hello peer i lvl t → lvl = pl) :
    (∀ l1 l2, levelsCompatible l1 l2 = true ↔
      (l1 = ISISLevel.LEVEL_1_2 ∨ l2 = ISISLevel.LEVEL_1_2 ∨ l1 = l2)) ∧
    (∀ info, alGet peer (isisRun r evs).1.neighbors = some info →
      info.state = ISISState.INIT) ∧
    (∀ ts ∈ (isisRun r evs).2, peer ∉ ts) := by
  have hmain := isisRun_fold_stuck r.level peer pl hr12 hp12 hne evs (r, [])
    ⟨rfl, hnd, hpeer⟩ (by intro ts hts; simp at hts) hevs
  refine ⟨?_, hmain.1.2.2, hmain.2⟩
  intro l1 l2
  cases l1 <;> cases l2 <;> decide

/-- The event sequence used as witness input for C8: two hellos from the
level-2 peer B, one from the compatible peer C, and one record delivery. -/
def c8Evs : List IsisEvent :=
  [IsisEvent.hello "B" "eth0" ISISLevel.LEVEL_2 0,
   IsisEvent.hello "B" "eth0" ISISLevel.LEVEL_2 1,
   IsisEvent.hello "C" "eth1" ISISLevel.LEVEL_1 2,
   IsisEvent.record { system_id := "X", sequence := 0 } "C"]

/-- Witness for C8: against a level-1 router, the level-2 peer B still
has state `INIT` after the whole event sequence. -/
theorem c8_incompatible_peer_stuck_in_init_witness :
    (alGet "B" (isisRun (initIsisRouter "A" ISISLevel.LEVEL_1)
        c8Evs).1.neighbors).map ISISNeighborInfo.state
      = some ISISState.INIT := by
  have h := c8_incompatible_peer_stuck_in_init
    (initIsisRouter "A" ISISLevel.LEVEL_1) "B" ISISLevel.LEVEL_2 c8Evs
    (by decide) (by decide) (by decide) (by decide)
    (by intro info hg; exact Option.noConfusion hg)
    (by
      intro e he i lvl t heq
      rw [heq] at he
      simp only [c8Evs, List.mem_cons, List.mem_singleton,
        IsisEvent.hello.injEq] at he
      rcases he with ⟨_, _, h3, _⟩ | ⟨_, _, h3, _⟩ | h3 | h3 | h3
      · exact h3
      · exact h3
      · exact absurd h3.1 (by decide)
      · cases h3
      · cases h3)
  have hB : alGet "B" (isisRun (initIsisRouter "A" ISISLevel.LEVEL_1)
      c8Evs).1.neighbors = some
      { state := ISISState.INIT, lastHello := 1, iface := "eth0",
        level := ISISLevel.LEVEL_2 } := by rfl
  rw [hB]
  exact congrArg some (h.2.1 _ hB)

end OspfLab
